import Mathlib

/-!
Verification of the economy engine (`utils/eco.py`) of the Mayumi Discord bot,
together with the transfer flow in `cogs/pay.py` and the leaderboard query used
by `cogs/leader.py`.

The SQLite-backed `EconomySystem` class is embedded shallowly:

* the `users` table becomes an association list `users : List (Int × UserRow)`
  keyed by `user_id` (an `INTEGER PRIMARY KEY`, hence unique);
* the `transactions` table becomes an insertion-ordered list `transactions`;
* the `shop` table becomes a list of `ShopItem` rows;
* `ValueError` exceptions raised by the Python code become an `EcoError` value;
  every operation returns the pair of its `Except` outcome and the state after
  the call, so that lazy account creation happening before a raise is kept;
* SQLite timestamps: `claim_daily` stores `datetime.now()` through the sqlite3
  default adapter, which serialises a `datetime` as `YYYY-MM-DD HH:MM:SS` when
  `microsecond == 0` and as `YYYY-MM-DD HH:MM:SS.ffffff` otherwise.  We model
  a stored timestamp by its epoch value in seconds plus its microsecond field
  (`Timestamp`); `datetime.strptime(s, '%Y-%m-%d %H:%M:%S')` succeeds exactly
  when the stored microsecond field is zero (otherwise Python raises
  `ValueError: unconverted data remains: .ffffff`).
  `(now - last).total_seconds() / 3600` compared against the integer bounds 24
  and 48 is modelled exactly on integer microseconds: for `0 ≤ f < 1` a
  fractional second, `hours < 24` iff the microsecond difference is
  `< 24*3600*10^6`, and `hours ≤ 48` iff it is `≤ 48*3600*10^6`.
-/

/-- Seconds-plus-microseconds representation of a `datetime` value as the
sqlite3 adapter serialises it.  `sec` is the whole-second part (an epoch
count), `micro` the `datetime.microsecond` field, `0 ≤ micro < 10^6`. -/
structure Timestamp where
  sec : Int
  micro : Nat
deriving Repr, DecidableEq

/-- One row of the `users` table (`create_tables` in `utils/eco.py`).
`balance` is the wallet, `bank_balance` the bank.  `inventory` is the JSON
dict column, kept as an association list from item name to quantity.
`last_work`/`last_active` are irrelevant to the verified claims and omitted. -/
structure UserRow where
  balance : Int
  bank_balance : Int
  last_daily : Option Timestamp
  daily_streak : Int
  inventory : List (String × Int)
deriving Repr, DecidableEq

/-- One row of the `transactions` table.  `transaction_id`/`timestamp` are
auto-filled by SQLite and play no role in the claims, so only the inserted
columns are kept, in insertion order. -/
structure Txn where
  user_id : Int
  amount : Int
  type : String
  description : String
deriving Repr, DecidableEq

/-- One row of the `shop` table. -/
structure ShopItem where
  name : String
  price : Int
  stock : Int
  role_reward : Option String
  is_active : Bool
deriving Repr, DecidableEq

/-- The persistent state owned by `EconomySystem`, together with the
`starting_balance` constructor argument. -/
structure EcoState where
  users : List (Int × UserRow)
  transactions : List Txn
  shop : List ShopItem
  starting_balance : Int
deriving Repr, DecidableEq

/-- The `ValueError`s raised by `utils/eco.py` and the outcomes of the pay
command, as distinguishable values.  The Python message strings are noted on
each constructor. -/
inductive EcoError where
  /-- `update_balance`: "Insufficient funds" -/
  | insufficientFunds
  /-- `deposit`: "Insufficient funds in wallet" -/
  | insufficientFundsWallet
  /-- `withdraw`: "Insufficient funds in bank" -/
  | insufficientFundsBank
  /-- `claim_daily`: "Daily reward available in ... hours" -/
  | tooSoon
  /-- `claim_daily`: `ValueError` raised by `datetime.strptime` when the
  stored `last_daily` text does not match `'%Y-%m-%d %H:%M:%S'` -/
  | parseError
  /-- `buy_item`: "Item not found" -/
  | itemNotFound
  /-- `buy_item`: "Item out of stock" -/
  | outOfStock
  /-- `pay` command: "Amount must be positive!" reply -/
  | nonPositiveAmount
  /-- `pay` command: "You can't pay yourself!" reply -/
  | selfTransfer
  /-- `pay` command: "Insufficient funds! ..." reply -/
  | payInsufficientFunds
  /-- an injected storage failure (I/O error) used for atomicity analysis -/
  | storageFailure
  /-- spec model only: "AccountFrozen" -/
  | accountFrozen
deriving Repr, DecidableEq

/-- Wallet/bank pair returned by `get_balance`. -/
structure Balances where
  wallet : Int
  bank : Int
deriving Repr, DecidableEq

deriving instance DecidableEq for Except

namespace EcoState

/-- Row lookup by primary key (`SELECT ... WHERE user_id = ?`). -/
def findUser (st : EcoState) (uid : Int) : Option UserRow :=
  (st.users.find? (fun p => p.1 = uid)).map (·.2)

/-- `UPDATE users SET ... WHERE user_id = ?`: rewrite the matching row. -/
def setUser (st : EcoState) (uid : Int) (f : UserRow → UserRow) : EcoState :=
  { st with users := st.users.map (fun p => if p.1 = uid then (p.1, f p.2) else p) }

end EcoState

/-- `add_user`: `INSERT INTO users (user_id, balance) VALUES (?, ?)` with the
starting balance; on primary-key conflict (`sqlite3.IntegrityError`) the state
is unchanged and `False` is returned.  The remaining columns take their table
defaults: `bank_balance 0`, `last_daily NULL`, `daily_streak 0`,
`inventory '{}'`. -/
def add_user (st : EcoState) (uid : Int) : Bool × EcoState :=
  match st.findUser uid with
  | some _ => (false, st)
  | none =>
      (true, { st with users :=
        st.users ++ [(uid, { balance := st.starting_balance, bank_balance := 0,
                             last_daily := none, daily_streak := 0, inventory := [] })] })

/-- `get_balance`: read wallet and bank; on a missing row, lazily create the
user and report `{wallet: starting_balance, bank: 0}`. -/
def get_balance (st : EcoState) (uid : Int) : Balances × EcoState :=
  match st.findUser uid with
  | some row => ({ wallet := row.balance, bank := row.bank_balance }, st)
  | none => ({ wallet := st.starting_balance, bank := 0 }, (add_user st uid).2)

/-- `update_balance`: apply a signed delta to the wallet; raise
"Insufficient funds" (leaving the state as after the `get_balance` call) when
the new balance would be negative; otherwise write the new balance and append
one row to `transactions`. -/
def update_balance (st : EcoState) (uid : Int) (amount : Int)
    (transaction_type : String) (description : String) :
    Except EcoError Balances × EcoState :=
  let (balance, st1) := get_balance st uid
  let new_balance := balance.wallet + amount
  if new_balance < 0 then
    (.error .insufficientFunds, st1)
  else
    let st2 := st1.setUser uid (fun row => { row with balance := new_balance })
    let st3 := { st2 with transactions := st2.transactions ++
      [{ user_id := uid, amount := amount, type := transaction_type,
         description := description }] }
    (.ok (get_balance st3 uid).1, st3)

/-- `deposit`: move money from wallet to bank.  Raises
"Insufficient funds in wallet" when `wallet < amount`; otherwise
`balance -= amount`, `bank_balance += amount` in one UPDATE.  Note that the
sign of `amount` is not checked. -/
def deposit (st : EcoState) (uid : Int) (amount : Int) :
    Except EcoError Balances × EcoState :=
  let (balance, st1) := get_balance st uid
  if balance.wallet < amount then
    (.error .insufficientFundsWallet, st1)
  else
    let st2 := st1.setUser uid (fun row =>
      { row with balance := row.balance - amount,
                 bank_balance := row.bank_balance + amount })
    (.ok (get_balance st2 uid).1, st2)

/-- `withdraw`: move money from bank to wallet.  Raises
"Insufficient funds in bank" when `bank < amount`; otherwise
`balance += amount`, `bank_balance -= amount` in one UPDATE.  The sign of
`amount` is again not checked. -/
def withdraw (st : EcoState) (uid : Int) (amount : Int) :
    Except EcoError Balances × EcoState :=
  let (balance, st1) := get_balance st uid
  if balance.bank < amount then
    (.error .insufficientFundsBank, st1)
  else
    let st2 := st1.setUser uid (fun row =>
      { row with balance := row.balance + amount,
                 bank_balance := row.bank_balance - amount })
    (.ok (get_balance st2 uid).1, st2)

/-- The relevant entries of the default configuration loaded by
`_load_config`. -/
def daily_reward : Int := 100

/-- `config['daily_streak_bonus']`. -/
def daily_streak_bonus : Int := 50

/-- Result dict of `claim_daily`. -/
structure DailyResult where
  amount : Int
  streak : Int
  streak_bonus : Int
deriving Repr, DecidableEq

/-- `claim_daily`: the daily-reward state machine of `utils/eco.py`.

The stored `last_daily` text is re-read with
`datetime.strptime(last_daily, '%Y-%m-%d %H:%M:%S')`, which raises
`ValueError` exactly when the stored value carries a fractional-second part,
i.e. when the timestamp written earlier had `micro ≠ 0`
(`ValueError: unconverted data remains: .ffffff`).  On a successful parse the
stored microseconds are zero, so the exact value of
`hours_passed = (now - last_daily).total_seconds() / 3600` corresponds to the
integer microsecond difference `diffMicros = (now.sec - last.sec)*10^6 +
now.micro`, and `hours_passed < 24` iff `diffMicros < 24*3600*10^6`,
`hours_passed ≤ 48` iff `diffMicros ≤ 48*3600*10^6`. -/
def claim_daily (st : EcoState) (uid : Int) (now : Timestamp) :
    Except EcoError DailyResult × EcoState :=
  let lookup := st.findUser uid
  let st1 := match lookup with
    | none => (add_user st uid).2
    | some _ => st
  let last_daily : Option Timestamp := match lookup with
    | none => none
    | some row => row.last_daily
  let streak0 : Int := match lookup with
    | none => 0
    | some row => row.daily_streak
  match last_daily with
  | some last =>
      if last.micro ≠ 0 then
        (.error .parseError, st1)
      else
        let diffMicros : Int := (now.sec - last.sec) * 1000000 + (now.micro : Int)
        if diffMicros < 24 * 3600 * 1000000 then
          (.error .tooSoon, st1)
        else
          let streak := if diffMicros ≤ 48 * 3600 * 1000000 then streak0 + 1 else 1
          let total_amount := daily_reward + daily_streak_bonus * (streak - 1)
          let st2 := st1.setUser uid (fun row =>
            { row with balance := row.balance + total_amount,
                       last_daily := some now, daily_streak := streak })
          (.ok { amount := total_amount, streak := streak,
                 streak_bonus := daily_streak_bonus * (streak - 1) }, st2)
  | none =>
      let streak : Int := 1
      let total_amount := daily_reward + daily_streak_bonus * (streak - 1)
      let st2 := st1.setUser uid (fun row =>
        { row with balance := row.balance + total_amount,
                   last_daily := some now, daily_streak := streak })
      (.ok { amount := total_amount, streak := streak,
             streak_bonus := daily_streak_bonus * (streak - 1) }, st2)

/-- `dict.get(item_name, 0)` on the JSON inventory dict. -/
def invGet (inv : List (String × Int)) (item_name : String) : Int :=
  match inv.find? (fun p => p.1 = item_name) with
  | some p => p.2
  | none => 0

/-- `inventory[item_name] = q`: replace the binding if the key is present,
append it otherwise (Python dict assignment). -/
def invSet (inv : List (String × Int)) (item_name : String) (q : Int) :
    List (String × Int) :=
  if inv.any (fun p => p.1 = item_name) then
    inv.map (fun p => if p.1 = item_name then (p.1, q) else p)
  else
    inv ++ [(item_name, q)]

/-- `get_inventory`: the user's JSON inventory, `{}` when the row is
missing. -/
def get_inventory (st : EcoState) (uid : Int) : List (String × Int) :=
  match st.findUser uid with
  | some row => row.inventory
  | none => []

/-- `add_to_inventory`: read the inventory, bump `item_name` by `quantity`,
write it back.  The `UPDATE` silently affects no row when the user is
missing. -/
def add_to_inventory (st : EcoState) (uid : Int) (item_name : String)
    (quantity : Int) : EcoState :=
  let inventory := get_inventory st uid
  let inventory := invSet inventory item_name (invGet inventory item_name + quantity)
  st.setUser uid (fun row => { row with inventory := inventory })

/-- Result dict of `buy_item`. -/
structure PurchaseResult where
  item : String
  price : Int
  role_reward : Option String
deriving Repr, DecidableEq

/-- `SELECT ... FROM shop WHERE name = ? AND is_active = 1` (`fetchone`). -/
def findShopItem (st : EcoState) (item_name : String) : Option ShopItem :=
  st.shop.find? (fun it => it.name = item_name && it.is_active)

/-- `UPDATE shop SET stock = stock - 1 WHERE name = ?`. -/
def decStock (st : EcoState) (item_name : String) : EcoState :=
  { st with shop := st.shop.map (fun it =>
      if it.name = item_name then { it with stock := it.stock - 1 } else it) }

/-- Injected storage-failure points inside `buy_item`'s mutation sequence,
used to analyse its atomicity.  `buy_item` wraps the sequence in an outer
`with self.conn:` block, but `add_to_inventory` and `update_balance` each
contain their own `with self.conn:` block whose normal exit COMMITS the
connection's single open transaction (sqlite3 has no nested transactions), so
the commit points are: nothing committed until `add_to_inventory` returns;
stock decrement and inventory update committed there; wallet update and
transaction insert committed when `update_balance`'s block exits.

* `noFault`: the sequence runs to completion.
* `beforeInventoryCommit`: an I/O error hits before `add_to_inventory`'s
  block exits; everything pending is rolled back, nothing was committed.
* `duringDebit`: an I/O error hits inside `update_balance`'s block;
  `update_balance`'s context manager rolls its own pending writes back, but
  the stock decrement and the inventory update were already committed. -/
inductive BuyFault where
  | noFault
  | beforeInventoryCommit
  | duringDebit
deriving Repr, DecidableEq

/-- `buy_item`: purchase an item from the shop, with an injected-failure
parameter describing which (if any) storage failure interrupts the mutation
sequence; see `BuyFault` for the commit-boundary analysis. -/
def buy_item (st : EcoState) (uid : Int) (item_name : String)
    (fault : BuyFault) : Except EcoError PurchaseResult × EcoState :=
  match findShopItem st item_name with
  | none => (.error .itemNotFound, st)
  | some item =>
      if item.stock = 0 then
        (.error .outOfStock, st)
      else
        let (balance, st1) := get_balance st uid
        if balance.wallet < item.price then
          (.error .insufficientFunds, st1)
        else
          match fault with
          | .beforeInventoryCommit => (.error .storageFailure, st1)
          | _ =>
            let st2 := if item.stock > 0 then decStock st1 item_name else st1
            let st3 := add_to_inventory st2 uid item_name 1
            match fault with
            | .duringDebit => (.error .storageFailure, st3)
            | _ =>
              let (r, st4) := update_balance st3 uid (-item.price) "purchase"
                ("Bought " ++ item_name)
              match r with
              | .error e => (.error e, st4)
              | .ok _ => (.ok { item := item_name, price := item.price,
                                role_reward := item.role_reward }, st4)

/-- The `pay` command of `cogs/pay.py`, after `parse_amount` has produced the
integer `amount`.  The two balance moves are two separate `update_balance`
calls with no surrounding transaction and no compensation logic; `creditFault`
injects a storage failure in the recipient's `update_balance` call (its own
`with self.conn:` block rolls back that call's pending writes, while the
sender's debit was already committed by the first call). -/
def pay (st : EcoState) (author recipient : Int) (amount : Int)
    (authorName recipientName : String) (creditFault : Bool) :
    Except EcoError Unit × EcoState :=
  if amount ≤ 0 then
    (.error .nonPositiveAmount, st)
  else
    let (sender_balance, st1) := get_balance st author
    if sender_balance.wallet < amount then
      (.error .payInsufficientFunds, st1)
    else if author = recipient then
      (.error .selfTransfer, st1)
    else
      let (r1, st2) := update_balance st1 author (-amount) "transfer_sent"
        ("Payment to " ++ recipientName)
      match r1 with
      | .error e => (.error e, st2)
      | .ok _ =>
          if creditFault then
            (.error .storageFailure, st2)
          else
            let (r2, st3) := update_balance st2 recipient amount
              "transfer_received" ("Payment from " ++ authorName)
            match r2 with
            | .error e => (.error e, st3)
            | .ok _ => (.ok (), st3)

/-- `SELECT user_id, balance + bank_balance as total FROM users`: each user
paired with their total wealth, in table order. -/
def totalsOf (st : EcoState) : List (Int × Int) :=
  st.users.map (fun p => (p.1, p.2.balance + p.2.bank_balance))

/-- The list is in non-increasing order of the `total` component
(`ORDER BY total DESC`). -/
def sortedTotalsDesc : List (Int × Int) → Bool
  | [] => true
  | [_] => true
  | a :: b :: rest => decide (b.2 ≤ a.2) && sortedTotalsDesc (b :: rest)

/-- `get_leaderboard`: `SELECT user_id, balance + bank_balance as total FROM
users ORDER BY total DESC LIMIT ?`.  SQL fixes the result only up to the
relative order of rows with equal `total` (there is no secondary sort key in
the query), so the query is embedded as the predicate of admissible result
sets: `out` is an admissible result of `get_leaderboard(limit)` iff it is the
`limit`-prefix of some total-descending rearrangement of the users table.
The Python signature has a single `limit` parameter and no `offset`. -/
def get_leaderboard_result (st : EcoState) (limit : Nat)
    (out : List (Int × Int)) : Prop :=
  ∃ perm : List (Int × Int),
    List.Perm (totalsOf st) perm ∧ sortedTotalsDesc perm = true ∧
    out = perm.take limit

/-- Every pair of equal-total entries appears in ascending `user_id` order
(the determinism property the spec asks of leaderboard ties). -/
def tiesAscending : List (Int × Int) → Bool
  | [] => true
  | a :: rest => rest.all (fun b => decide (a.2 ≠ b.2) || decide (a.1 < b.1)) && tiesAscending rest

/-- Sum of the `amount` column over a user's transaction rows. -/
def txSum (st : EcoState) (uid : Int) : Int :=
  ((st.transactions.filter (fun t => t.user_id = uid)).map Txn.amount).sum

/-- The ledger reconciliation property for one user: the sum of the user's
transaction amounts equals `wallet_balance - starting_balance` (0 when the
row does not exist yet). -/
def reconciles (st : EcoState) (uid : Int) : Prop :=
  txSum st uid = (match st.findUser uid with
    | some row => row.balance - st.starting_balance
    | none => 0)

instance (st : EcoState) (uid : Int) : Decidable (reconciles st uid) := by
  unfold reconciles
  exact inferInstance

/-- The balance/streak invariants claimed of every account: nonnegative
wallet, nonnegative bank, nonnegative streak counter, together with a
nonnegative configured starting balance. -/
def EcoInv (st : EcoState) : Prop :=
  0 ≤ st.starting_balance ∧
  ∀ uid row, st.findUser uid = some row →
    0 ≤ row.balance ∧ 0 ≤ row.bank_balance ∧ 0 ≤ row.daily_streak

/-! ## Spec model of the frozen-account variant

The spec describes an account `status` field (`{active, frozen}`) and an
`AccountFrozen` failure of `update_balance`; no eco variant under `src/`
carries a status column (the `users` table of `utils/eco.py` has none), so
this part is modelled from the spec's words alone. -/

/-- Modelled from the spec: `status`: enum {active, frozen}. -/
inductive AccountStatus where
  | active
  | frozen
deriving Repr, DecidableEq

/-- Modelled from the spec: an account of the advanced variant, carrying the
status flag next to its balance. -/
structure SpecAccount where
  balance : Int
  status : AccountStatus
deriving Repr, DecidableEq

/-- Modelled from the spec: the ledger state of the advanced variant. -/
structure SpecLedger where
  users : List (Int × SpecAccount)
  transactions : List Txn
  starting_balance : Int
deriving Repr, DecidableEq

/-- Row lookup in the spec-modelled ledger. -/
def SpecLedger.findUser (st : SpecLedger) (uid : Int) : Option SpecAccount :=
  (st.users.find? (fun p => p.1 = uid)).map (·.2)

/-- Modelled from the spec: `update_balance(user_id, amount, type,
description)` of the advanced variant, which is absent from `src/`.  Per
§4.1: the account is created lazily with the starting balance and active
status; it "Fails with `AccountFrozen` when the account's status is frozen —
no balance or ledger mutation occurs" (frozen accounts reject all debit and
credit operations); it fails with `InsufficientFunds` leaving the balance
unchanged when the delta would drive the balance negative; on success the
balance is updated and one Transaction row is appended. -/
def update_balance_specModel (st : SpecLedger) (uid : Int) (amount : Int)
    (transaction_type : String) (description : String) :
    Except EcoError Int × SpecLedger :=
  match st.findUser uid with
  | none =>
      let acct : SpecAccount := { balance := st.starting_balance, status := .active }
      let st1 := { st with users := st.users ++ [(uid, acct)] }
      if acct.balance + amount < 0 then
        (.error .insufficientFunds, st1)
      else
        (.ok (acct.balance + amount),
         { st1 with
             users := st1.users.map (fun p =>
               if p.1 = uid then (p.1, { p.2 with balance := acct.balance + amount }) else p),
             transactions := st1.transactions ++
               [{ user_id := uid, amount := amount, type := transaction_type,
                  description := description }] })
  | some acct =>
      if acct.status = .frozen then
        (.error .accountFrozen, st)
      else if acct.balance + amount < 0 then
        (.error .insufficientFunds, st)
      else
        (.ok (acct.balance + amount),
         { st with
             users := st.users.map (fun p =>
               if p.1 = uid then (p.1, { p.2 with balance := acct.balance + amount }) else p),
             transactions := st.transactions ++
               [{ user_id := uid, amount := amount, type := transaction_type,
                  description := description }] })

/-! ## Concrete example states used in counterexamples and witnesses -/

/-- One user (id 1) with empty wallet and empty bank. -/
def exStZero : EcoState := ⟨[(1, ⟨0, 0, none, 0, []⟩)], [], [], 1000⟩

/-- One user (id 1) with 50 in the wallet. -/
def exSt50 : EcoState := ⟨[(1, ⟨50, 0, none, 0, []⟩)], [], [], 1000⟩

/-- Two users: id 1 with 100 in the wallet, id 2 with 50. -/
def exStPay : EcoState :=
  ⟨[(1, ⟨100, 0, none, 0, []⟩), (2, ⟨50, 0, none, 0, []⟩)], [], [], 1000⟩

/-- A shop holding one Sword (price 100, stock 1, active) and a buyer
(id 1) with exactly 100 in the wallet. -/
def exStShop : EcoState :=
  ⟨[(1, ⟨100, 0, none, 0, []⟩)], [], [⟨"Sword", 100, 1, none, true⟩], 1000⟩

/-- A user whose `last_daily` was stored by a claim made half a second past
epoch 0 (microsecond field 500000), with streak 1 and the reward credited. -/
def exStMicro : EcoState :=
  ⟨[(1, ⟨1100, 0, some ⟨0, 500000⟩, 1, []⟩)], [], [], 1000⟩

/-- A freshly created user, still at the starting balance, empty ledger. -/
def exStFresh : EcoState := ⟨[(1, ⟨1000, 0, none, 0, []⟩)], [], [], 1000⟩

/-- Two users with equal total wealth 100 (id 1: 60 wallet + 40 bank,
id 2: 100 wallet). -/
def exStTie : EcoState :=
  ⟨[(1, ⟨60, 40, none, 0, []⟩), (2, ⟨100, 0, none, 0, []⟩)], [], [], 1000⟩

/-- Spec-model ledger holding one frozen account (id 7, balance 500). -/
def exSpecFrozen : SpecLedger := ⟨[(7, ⟨500, .frozen⟩)], [], 1000⟩

/-! ## Basic lemmas about the state operations -/

theorem EcoState.findUser_setUser (st : EcoState) (uid v : Int) (f : UserRow → UserRow) :
    (st.setUser uid f).findUser v =
      (st.findUser v).map (fun row => if v = uid then f row else row) := by
  unfold EcoState.findUser EcoState.setUser
  rw [List.find?_map]
  have hpred : ((fun p : Int × UserRow => decide (p.1 = v)) ∘
      (fun p : Int × UserRow => if p.1 = uid then (p.1, f p.2) else p)) =
      (fun p : Int × UserRow => decide (p.1 = v)) := by
    funext p
    by_cases h : p.1 = uid <;> simp [h]
  rw [hpred]
  cases hfind : List.find? (fun p : Int × UserRow => decide (p.1 = v)) st.users with
  | none => rfl
  | some p =>
      have hv : p.1 = v := by simpa using List.find?_some hfind
      by_cases h : v = uid <;> simp [Option.map_map, Function.comp, hv, h]

theorem findUser_add_user_of_none (st : EcoState) (uid v : Int)
    (h : st.findUser uid = none) :
    (add_user st uid).2.findUser v =
      if v = uid
      then some { balance := st.starting_balance, bank_balance := 0,
                  last_daily := none, daily_streak := 0, inventory := [] }
      else st.findUser v := by
  have hfind : List.find? (fun p : Int × UserRow => decide (p.1 = uid)) st.users = none := by
    unfold EcoState.findUser at h
    exact Option.map_eq_none.mp h
  unfold add_user
  rw [show st.findUser uid = none from h]
  unfold EcoState.findUser
  rw [List.find?_append]
  by_cases hv : v = uid
  · subst hv
    rw [hfind]
    simp
  · cases hfind2 : List.find? (fun p : Int × UserRow => decide (p.1 = v)) st.users with
    | none => simp [Ne.symm hv, hv]
    | some p => simp [hv]

theorem add_user_of_some (st : EcoState) (uid : Int) (row : UserRow)
    (h : st.findUser uid = some row) : add_user st uid = (false, st) := by
  unfold add_user
  rw [h]

theorem get_balance_of_found (st : EcoState) (uid : Int) (row : UserRow)
    (h : st.findUser uid = some row) :
    get_balance st uid = ({ wallet := row.balance, bank := row.bank_balance }, st) := by
  unfold get_balance
  rw [h]

theorem get_balance_of_none (st : EcoState) (uid : Int)
    (h : st.findUser uid = none) :
    get_balance st uid =
      ({ wallet := st.starting_balance, bank := 0 }, (add_user st uid).2) := by
  unfold get_balance
  rw [h]

theorem get_balance_findUser (st : EcoState) (uid : Int) :
    ∃ row, (get_balance st uid).2.findUser uid = some row ∧
      row.balance = (get_balance st uid).1.wallet ∧
      row.bank_balance = (get_balance st uid).1.bank := by
  cases h : st.findUser uid with
  | some row =>
      refine ⟨row, ?_, ?_, ?_⟩ <;> rw [get_balance_of_found st uid row h]
      · exact h
  | none =>
      rw [get_balance_of_none st uid h]
      exact ⟨_, by rw [findUser_add_user_of_none st uid uid h, if_pos rfl], rfl, rfl⟩

theorem findUser_get_balance_ne (st : EcoState) (uid v : Int) (hv : v ≠ uid) :
    (get_balance st uid).2.findUser v = st.findUser v := by
  cases h : st.findUser uid with
  | some row => rw [get_balance_of_found st uid row h]
  | none =>
      rw [get_balance_of_none st uid h, findUser_add_user_of_none st uid v h, if_neg hv]

theorem transactions_add_user (st : EcoState) (uid : Int) :
    (add_user st uid).2.transactions = st.transactions := by
  unfold add_user
  cases st.findUser uid <;> rfl

theorem transactions_get_balance (st : EcoState) (uid : Int) :
    (get_balance st uid).2.transactions = st.transactions := by
  unfold get_balance
  cases h : st.findUser uid
  · exact transactions_add_user st uid
  · rfl

theorem starting_add_user (st : EcoState) (uid : Int) :
    (add_user st uid).2.starting_balance = st.starting_balance := by
  unfold add_user
  cases st.findUser uid <;> rfl

theorem starting_get_balance (st : EcoState) (uid : Int) :
    (get_balance st uid).2.starting_balance = st.starting_balance := by
  unfold get_balance
  cases h : st.findUser uid
  · exact starting_add_user st uid
  · rfl

/-! ## Preservation of the nonnegativity invariant -/

theorem ecoInv_transactions (st : EcoState) (t : List Txn) (h : EcoInv st) :
    EcoInv { st with transactions := t } := h

theorem ecoInv_setUser (st : EcoState) (uid : Int) (f : UserRow → UserRow)
    (h : EcoInv st)
    (hf : ∀ row, st.findUser uid = some row →
      0 ≤ (f row).balance ∧ 0 ≤ (f row).bank_balance ∧ 0 ≤ (f row).daily_streak) :
    EcoInv (st.setUser uid f) := by
  refine ⟨h.1, fun v row hrow => ?_⟩
  rw [EcoState.findUser_setUser] at hrow
  cases hv : st.findUser v with
  | none => rw [hv] at hrow; exact absurd hrow (by simp)
  | some row0 =>
      rw [hv] at hrow
      simp only [Option.map_some', Option.some.injEq] at hrow
      by_cases hvu : v = uid
      · subst hvu
        rw [if_pos rfl] at hrow
        subst hrow
        exact hf row0 hv
      · rw [if_neg hvu] at hrow
        subst hrow
        exact h.2 v row0 hv

theorem ecoInv_add_user (st : EcoState) (uid : Int) (h : EcoInv st) :
    EcoInv (add_user st uid).2 := by
  cases hlk : st.findUser uid with
  | some row => rw [add_user_of_some st uid row hlk]; exact h
  | none =>
      refine ⟨by rw [starting_add_user]; exact h.1, fun v row hrow => ?_⟩
      rw [findUser_add_user_of_none st uid v hlk] at hrow
      by_cases hv : v = uid
      · rw [if_pos hv] at hrow
        cases hrow
        exact ⟨h.1, le_refl 0, le_refl 0⟩
      · rw [if_neg hv] at hrow
        exact h.2 v row hrow

theorem ecoInv_get_balance (st : EcoState) (uid : Int) (h : EcoInv st) :
    EcoInv (get_balance st uid).2 := by
  cases hlk : st.findUser uid with
  | some row => rw [get_balance_of_found st uid row hlk]; exact h
  | none => rw [get_balance_of_none st uid hlk]; exact ecoInv_add_user st uid h

theorem get_balance_nonneg (st : EcoState) (uid : Int) (h : EcoInv st) :
    0 ≤ (get_balance st uid).1.wallet ∧ 0 ≤ (get_balance st uid).1.bank := by
  cases hlk : st.findUser uid with
  | some row =>
      rw [get_balance_of_found st uid row hlk]
      exact ⟨(h.2 uid row hlk).1, (h.2 uid row hlk).2.1⟩
  | none =>
      rw [get_balance_of_none st uid hlk]
      exact ⟨h.1, le_refl 0⟩

theorem ecoInv_update_balance (st : EcoState) (uid amount : Int) (ty ds : String)
    (h : EcoInv st) : EcoInv (update_balance st uid amount ty ds).2 := by
  have h1 := ecoInv_get_balance st uid h
  obtain ⟨row1, hrow1, hw1, hb1⟩ := get_balance_findUser st uid
  unfold update_balance
  by_cases hneg : (get_balance st uid).1.wallet + amount < 0
  · simpa [hneg] using h1
  · simp only [hneg, if_false]
    refine ecoInv_transactions _ _ (ecoInv_setUser _ _ _ h1 ?_)
    intro row hrow
    rw [hrow1] at hrow
    cases hrow
    refine ⟨not_lt.mp hneg, ?_, ?_⟩
    · exact (h1.2 uid row1 hrow1).2.1
    · exact (h1.2 uid row1 hrow1).2.2

theorem ecoInv_deposit (st : EcoState) (uid amount : Int) (hamt : 0 ≤ amount)
    (h : EcoInv st) : EcoInv (deposit st uid amount).2 := by
  have h1 := ecoInv_get_balance st uid h
  have hnn := get_balance_nonneg st uid h
  obtain ⟨row1, hrow1, hw1, hb1⟩ := get_balance_findUser st uid
  unfold deposit
  by_cases hlt : (get_balance st uid).1.wallet < amount
  · simpa [hlt] using h1
  · simp only [hlt, if_false]
    refine ecoInv_setUser _ _ _ h1 ?_
    intro row hrow
    rw [hrow1] at hrow
    cases hrow
    refine ⟨?_, ?_, (h1.2 uid row1 hrow1).2.2⟩
    · dsimp only; omega
    · dsimp only; omega

theorem ecoInv_withdraw (st : EcoState) (uid amount : Int) (hamt : 0 ≤ amount)
    (h : EcoInv st) : EcoInv (withdraw st uid amount).2 := by
  have h1 := ecoInv_get_balance st uid h
  have hnn := get_balance_nonneg st uid h
  obtain ⟨row1, hrow1, hw1, hb1⟩ := get_balance_findUser st uid
  unfold withdraw
  by_cases hlt : (get_balance st uid).1.bank < amount
  · simpa [hlt] using h1
  · simp only [hlt, if_false]
    refine ecoInv_setUser _ _ _ h1 ?_
    intro row hrow
    rw [hrow1] at hrow
    cases hrow
    refine ⟨?_, ?_, (h1.2 uid row1 hrow1).2.2⟩
    · dsimp only; omega
    · dsimp only; omega

theorem ecoInv_credit (st : EcoState) (uid : Int) (now : Timestamp) (s : Int)
    (hs : 1 ≤ s) (h : EcoInv st) :
    EcoInv (st.setUser uid (fun row =>
      { row with balance := row.balance + (daily_reward + daily_streak_bonus * (s - 1)),
                 last_daily := some now, daily_streak := s })) := by
  refine ecoInv_setUser _ _ _ h ?_
  intro row hrow
  have hr := h.2 uid row hrow
  have h1 : daily_reward = 100 := rfl
  have h2 : daily_streak_bonus = 50 := rfl
  dsimp only
  rw [h1, h2]
  refine ⟨?_, hr.2.1, by omega⟩
  have : 0 ≤ 50 * (s - 1) := by omega
  omega

theorem ecoInv_claim_daily (st : EcoState) (uid : Int) (now : Timestamp)
    (h : EcoInv st) : EcoInv (claim_daily st uid now).2 := by
  unfold claim_daily
  cases hlk : st.findUser uid with
  | none =>
      simp only [hlk]
      exact ecoInv_credit _ uid now 1 (le_refl 1) (ecoInv_add_user st uid h)
  | some row0 =>
      simp only [hlk]
      have hr := h.2 uid row0 hlk
      cases hld : row0.last_daily with
      | none =>
          simp only
          exact ecoInv_credit st uid now 1 (le_refl 1) h
      | some last =>
          simp only
          by_cases hm : last.micro = 0
          · simp only [hm, ne_eq, not_true_eq_false, if_false]
            by_cases hlt : (now.sec - last.sec) * 1000000 + (now.micro : Int) <
                24 * 3600 * 1000000
            · rw [if_pos hlt]
              exact h
            · rw [if_neg hlt]
              by_cases h48 : (now.sec - last.sec) * 1000000 + (now.micro : Int) ≤
                  48 * 3600 * 1000000
              · simp only [h48, if_true]
                exact ecoInv_credit st uid now (row0.daily_streak + 1) (by omega) h
              · simp only [h48, if_false]
                exact ecoInv_credit st uid now 1 (le_refl 1) h
          · simp only [hm, ne_eq, not_false_eq_true, if_true]
            exact h

theorem ecoInv_decStock (st : EcoState) (n : String) (h : EcoInv st) :
    EcoInv (decStock st n) := h

theorem ecoInv_add_to_inventory (st : EcoState) (uid : Int) (name : String)
    (q : Int) (h : EcoInv st) : EcoInv (add_to_inventory st uid name q) := by
  refine ecoInv_setUser _ _ _ h ?_
  intro row hrow
  exact h.2 uid row hrow

theorem ecoInv_buy_item (st : EcoState) (uid : Int) (name : String)
    (fault : BuyFault) (h : EcoInv st) : EcoInv (buy_item st uid name fault).2 := by
  unfold buy_item
  cases hfi : findShopItem st name with
  | none => simpa using h
  | some item =>
      simp only
      by_cases hs : item.stock = 0
      · simpa [hs] using h
      · simp only [hs, if_false]
        have h1 := ecoInv_get_balance st uid h
        by_cases hlt : (get_balance st uid).1.wallet < item.price
        · simpa [hlt] using h1
        · simp only [hlt, if_false]
          have h2 : EcoInv (if item.stock > 0
              then decStock (get_balance st uid).2 name
              else (get_balance st uid).2) := by
            split
            · exact ecoInv_decStock _ _ h1
            · exact h1
          have h3 := ecoInv_add_to_inventory _ uid name 1 h2
          have h4 := ecoInv_update_balance
            (add_to_inventory (if item.stock > 0
              then decStock (get_balance st uid).2 name
              else (get_balance st uid).2) uid name 1) uid (-item.price)
            "purchase" ("Bought " ++ name) h3
          cases fault with
          | beforeInventoryCommit => simpa using h1
          | duringDebit => simpa using h3
          | noFault =>
              simp only
              cases hrr : (update_balance
                (add_to_inventory (if item.stock > 0
                  then decStock (get_balance st uid).2 name
                  else (get_balance st uid).2) uid name 1) uid (-item.price)
                "purchase" ("Bought " ++ name)).1 <;>
                simpa [hrr] using h4

/-! ## Transaction-sum and reconciliation lemmas -/

theorem txSum_users_irrelevant (users : List (Int × UserRow)) (t : List Txn)
    (shop : List ShopItem) (sb : Int) (uid : Int) :
    txSum ⟨users, t, shop, sb⟩ uid =
      ((t.filter (fun x => x.user_id = uid)).map Txn.amount).sum := rfl

theorem txSum_setUser (st : EcoState) (uid v : Int) (f : UserRow → UserRow) :
    txSum (st.setUser uid f) v = txSum st v := rfl

theorem txSum_add_user (st : EcoState) (uid v : Int) :
    txSum (add_user st uid).2 v = txSum st v := by
  unfold txSum
  rw [transactions_add_user]

theorem txSum_get_balance (st : EcoState) (uid v : Int) :
    txSum (get_balance st uid).2 v = txSum st v := by
  unfold txSum
  rw [transactions_get_balance]

theorem txSum_append_one (st : EcoState) (t : Txn) (v : Int) :
    txSum { st with transactions := st.transactions ++ [t] } v =
      txSum st v + (if t.user_id = v then t.amount else 0) := by
  unfold txSum
  show ((List.filter _ (st.transactions ++ [t])).map Txn.amount).sum = _
  rw [List.filter_append, List.map_append, List.sum_append]
  by_cases h : t.user_id = v
  · simp [h]
  · simp [h]

theorem findUser_transactions (st : EcoState) (t : List Txn) (v : Int) :
    ({ st with transactions := t } : EcoState).findUser v = st.findUser v := rfl

theorem starting_setUser (st : EcoState) (uid : Int) (f : UserRow → UserRow) :
    (st.setUser uid f).starting_balance = st.starting_balance := rfl

theorem reconciles_get_balance (st : EcoState) (uid u : Int)
    (h2 : reconciles st u) :
    reconciles (get_balance st uid).2 u := by
  cases hlk : st.findUser uid with
  | some row => rw [get_balance_of_found st uid row hlk]; exact h2
  | none =>
      rw [get_balance_of_none st uid hlk]
      unfold reconciles at *
      rw [txSum_add_user, findUser_add_user_of_none st uid u hlk, starting_add_user]
      by_cases hu : u = uid
      · rw [if_pos hu]
        rw [hu] at h2 ⊢
        rw [hlk] at h2
        simpa using h2
      · rw [if_neg hu]
        exact h2

/-- Evaluation of a successful `update_balance` on an existing account. -/
theorem update_balance_success (st : EcoState) (uid : Int) (row : UserRow)
    (amount : Int) (ty ds : String) (hrow : st.findUser uid = some row)
    (hok : 0 ≤ row.balance + amount) :
    update_balance st uid amount ty ds =
      (.ok ⟨row.balance + amount, row.bank_balance⟩,
       { (st.setUser uid (fun r => { r with balance := row.balance + amount })) with
         transactions := st.transactions ++ [⟨uid, amount, ty, ds⟩] }) := by
  unfold update_balance
  rw [get_balance_of_found st uid row hrow]
  simp only
  rw [if_neg (by omega : ¬ row.balance + amount < 0)]
  have hfu : (EcoState.mk
      (st.setUser uid (fun r => { r with balance := row.balance + amount })).users
      ((st.setUser uid (fun r => { r with balance := row.balance + amount })).transactions ++
        [⟨uid, amount, ty, ds⟩])
      (st.setUser uid (fun r => { r with balance := row.balance + amount })).shop
      (st.setUser uid
        (fun r => { r with balance := row.balance + amount })).starting_balance).findUser uid =
      some { row with balance := row.balance + amount } := by
    show (st.setUser uid (fun r => { r with balance := row.balance + amount })).findUser uid = _
    rw [EcoState.findUser_setUser, hrow]
    simp
  rw [get_balance_of_found _ uid _ hfu]
  rfl

/-! ## Inventory, shop and leaderboard lemmas -/

theorem invGet_invSet (inv : List (String × Int)) (n : String) (q : Int) :
    invGet (invSet inv n q) n = q := by
  unfold invGet invSet
  by_cases h : inv.any (fun p => p.1 = n)
  · rw [if_pos h]
    rw [List.find?_map]
    have hpred : ((fun p : String × Int => decide (p.1 = n)) ∘
        (fun p : String × Int => if p.1 = n then (p.1, q) else p)) =
        (fun p : String × Int => decide (p.1 = n)) := by
      funext p
      by_cases hp : p.1 = n <;> simp [hp]
    rw [hpred]
    cases hf : List.find? (fun p : String × Int => decide (p.1 = n)) inv with
    | none =>
        rw [List.find?_eq_none] at hf
        rw [List.any_eq_true] at h
        obtain ⟨x, hx, hpx⟩ := h
        exact absurd hpx (hf x hx)
    | some p =>
        have hp : p.1 = n := by simpa using List.find?_some hf
        simp [hp]
  · rw [if_neg h]
    rw [List.find?_append]
    have hnone : List.find? (fun p : String × Int => decide (p.1 = n)) inv = none := by
      rw [List.find?_eq_none]
      intro x hx hpx
      exact h (List.any_eq_true.mpr ⟨x, hx, hpx⟩)
    rw [hnone]
    simp

theorem findShopItem_decStock (st : EcoState) (n : String) :
    findShopItem (decStock st n) n =
      (findShopItem st n).map (fun it => { it with stock := it.stock - 1 }) := by
  unfold findShopItem decStock
  show List.find? _ (st.shop.map _) = _
  rw [List.find?_map]
  have hpred : ((fun it : ShopItem => it.name = n && it.is_active) ∘
      (fun it : ShopItem => if it.name = n then { it with stock := it.stock - 1 } else it)) =
      (fun it : ShopItem => it.name = n && it.is_active) := by
    funext it
    by_cases hp : it.name = n <;> simp [hp]
  rw [hpred]
  cases hf : List.find? (fun it : ShopItem => it.name = n && it.is_active) st.shop with
  | none => rfl
  | some it =>
      have hp : it.name = n := by
        have := List.find?_some hf
        simp only [Bool.and_eq_true, decide_eq_true_eq] at this
        exact this.1
      simp [hp]

theorem findShopItem_setUser (st : EcoState) (uid : Int) (f : UserRow → UserRow)
    (n : String) : findShopItem (st.setUser uid f) n = findShopItem st n := rfl

theorem findShopItem_add_to_inventory (st : EcoState) (uid : Int) (item q n) :
    findShopItem (add_to_inventory st uid item q) n = findShopItem st n := rfl

theorem transactions_setUser (st : EcoState) (uid : Int) (f : UserRow → UserRow) :
    (st.setUser uid f).transactions = st.transactions := rfl

theorem transactions_decStock (st : EcoState) (n : String) :
    (decStock st n).transactions = st.transactions := rfl

theorem transactions_add_to_inventory (st : EcoState) (uid : Int) (item : String)
    (q : Int) : (add_to_inventory st uid item q).transactions = st.transactions := rfl

theorem findUser_decStock (st : EcoState) (n : String) (v : Int) :
    (decStock st n).findUser v = st.findUser v := rfl

theorem sortedTotalsDesc_take (l : List (Int × Int)) (n : Nat)
    (h : sortedTotalsDesc l = true) : sortedTotalsDesc (l.take n) = true := by
  induction l generalizing n with
  | nil => simp [List.take_nil]; rfl
  | cons a tl ih =>
      cases n with
      | zero => rfl
      | succ m =>
          cases tl with
          | nil =>
              simp [List.take]
              rfl
          | cons b tl2 =>
              cases m with
              | zero => rfl
              | succ k =>
                  have hh : (b.2 ≤ a.2) ∧ sortedTotalsDesc (b :: tl2) = true := by
                    simpa [sortedTotalsDesc] using h
                  have htail := ih (n := k + 1) hh.2
                  show sortedTotalsDesc (a :: b :: List.take k tl2) = true
                  have : sortedTotalsDesc (b :: List.take k tl2) = true := by
                    simpa [List.take] using htail
                  simp [sortedTotalsDesc, hh.1, this]

/-! ## Claim theorems -/

theorem ecoInv_of_mem (st : EcoState) (h0 : 0 ≤ st.starting_balance)
    (h : ∀ p ∈ st.users, 0 ≤ p.2.balance ∧ 0 ≤ p.2.bank_balance ∧ 0 ≤ p.2.daily_streak) :
    EcoInv st := by
  refine ⟨h0, fun uid row hrow => ?_⟩
  unfold EcoState.findUser at hrow
  cases hf : st.users.find? (fun p => p.1 = uid) with
  | none => rw [hf] at hrow; cases hrow
  | some p =>
      rw [hf] at hrow
      simp only [Option.map_some', Option.some.injEq] at hrow
      subst hrow
      exact h p (List.mem_of_find?_eq_some hf)

/-- Claim C1, counterexample: `deposit` does not check the sign of `amount`,
so at wallet 0 / bank 0 the guard `wallet < amount` (`0 < -5`) is false and
`deposit(user, -5)` completes, leaving the bank balance at `-5 < 0`.  The
claim "no operation, for any integer amount argument, can leave either
balance negative" is therefore false. -/
theorem deposit_negative_amount_negative_bank :
    (deposit exStZero 1 (-5)).1 = .ok ⟨5, -5⟩ ∧
    (exStZero.findUser 1).map UserRow.bank_balance = some 0 ∧
    ((deposit exStZero 1 (-5)).2.findUser 1).map UserRow.bank_balance = some (-5) := by
  decide

/-- Claim C1, amended: wallet balance, bank balance (and streak counter)
stay nonnegative for every user across `update_balance` (any amount),
`claim_daily` and `buy_item`, and across `deposit`/`withdraw` when the amount
argument is nonnegative; with a negative amount argument `deposit`/`withdraw`
can drive a balance negative (see the counterexample). -/
theorem balances_nonneg_preserved (st : EcoState) (h : EcoInv st) :
    (∀ uid amount ty ds, EcoInv (update_balance st uid amount ty ds).2) ∧
    (∀ uid amount, 0 ≤ amount → EcoInv (deposit st uid amount).2) ∧
    (∀ uid amount, 0 ≤ amount → EcoInv (withdraw st uid amount).2) ∧
    (∀ uid now, EcoInv (claim_daily st uid now).2) ∧
    (∀ uid name fault, EcoInv (buy_item st uid name fault).2) :=
  ⟨fun uid amount ty ds => ecoInv_update_balance st uid amount ty ds h,
   fun uid amount ha => ecoInv_deposit st uid amount ha h,
   fun uid amount ha => ecoInv_withdraw st uid amount ha h,
   fun uid now => ecoInv_claim_daily st uid now h,
   fun uid name fault => ecoInv_buy_item st uid name fault h⟩

/-- Witness for the amended C1 theorem at a concrete state and deposit. -/
theorem balances_nonneg_preserved_witness :
    EcoInv (deposit exSt50 1 20).2 :=
  (balances_nonneg_preserved exSt50
    (ecoInv_of_mem exSt50 (by decide) (by decide))).2.1 1 20 (by decide)

/-- Claim C3: when the account exists with wallet balance `b`, `amount < 0`
and `|amount| > b`, `update_balance` raises `ValueError("Insufficient
funds")` and the returned state is exactly the pre-call state: wallet, bank
and the transaction log are untouched. -/
theorem update_balance_insufficient_no_mutation (st : EcoState) (uid : Int)
    (row : UserRow) (amount : Int) (ty ds : String)
    (hrow : st.findUser uid = some row) (_hneg : amount < 0)
    (hover : row.balance < -amount) :
    update_balance st uid amount ty ds = (.error .insufficientFunds, st) := by
  unfold update_balance
  rw [get_balance_of_found st uid row hrow]
  simp only
  rw [if_pos (by omega : row.balance + amount < 0)]

/-- Witness for C3: wallet 50, debit of 60. -/
theorem update_balance_insufficient_no_mutation_witness :
    update_balance exSt50 1 (-60) "debit" "overdraft" =
      (.error .insufficientFunds, exSt50) :=
  update_balance_insufficient_no_mutation exSt50 1 ⟨50, 0, none, 0, []⟩ (-60)
    "debit" "overdraft" (by decide) (by decide) (by decide)

/-- Claim C4 (spec-modelled: no eco variant under `src/` has an account
`status` column; the frozen-account behaviour of the spec's advanced variant
is modelled from the spec's words): for every frozen account and every
amount, `update_balance` fails with `AccountFrozen` and neither balances nor
ledger are mutated. -/
theorem specModel_frozen_rejects_all (st : SpecLedger) (uid : Int)
    (acct : SpecAccount) (amount : Int) (ty ds : String)
    (hacct : st.findUser uid = some acct) (hfrozen : acct.status = .frozen) :
    update_balance_specModel st uid amount ty ds = (.error .accountFrozen, st) := by
  unfold update_balance_specModel
  rw [hacct]
  simp only
  rw [if_pos hfrozen]

/-- Witness for C4 at a concrete frozen account, crediting and debiting. -/
theorem specModel_frozen_rejects_all_witness :
    update_balance_specModel exSpecFrozen 7 100 "credit" "c" =
      (.error .accountFrozen, exSpecFrozen) ∧
    update_balance_specModel exSpecFrozen 7 (-100) "debit" "d" =
      (.error .accountFrozen, exSpecFrozen) :=
  ⟨specModel_frozen_rejects_all exSpecFrozen 7 ⟨500, .frozen⟩ 100 "credit" "c"
    (by decide) rfl,
   specModel_frozen_rejects_all exSpecFrozen 7 ⟨500, .frozen⟩ (-100) "debit" "d"
    (by decide) rfl⟩

theorem starting_transactions (st : EcoState) (t : List Txn) :
    ({ st with transactions := t } : EcoState).starting_balance =
      st.starting_balance := rfl

/-- Claim C2, counterexample: `claim_daily` credits the wallet without
appending any Transaction row.  On a fresh account at the starting balance
with an empty ledger, a successful claim leaves the wallet at 1100 and the
transaction log empty, so the sum of transaction amounts (0) no longer
equals `wallet - starting_balance` (100). -/
theorem claim_daily_breaks_reconciliation :
    (claim_daily exStFresh 1 ⟨0, 0⟩).1 = .ok ⟨100, 1, 0⟩ ∧
    ((claim_daily exStFresh 1 ⟨0, 0⟩).2.findUser 1).map UserRow.balance = some 1100 ∧
    (claim_daily exStFresh 1 ⟨0, 0⟩).2.transactions = [] ∧
    ¬ reconciles (claim_daily exStFresh 1 ⟨0, 0⟩).2 1 := by
  decide

/-- Claim C2, amended: of the wallet-mutating operations only
`update_balance` appends Transaction rows — exactly one per successful call,
with `amount` equal to the wallet change — so `update_balance` (and
`buy_item`, which debits through it) preserves the per-user reconciliation
`txSum = wallet - starting_balance`, while `claim_daily`, `deposit` and
`withdraw` change balances without appending rows and break it (see the
counterexample). -/
theorem update_balance_preserves_reconciliation (st : EcoState)
    (uid amount : Int) (ty ds : String) (u : Int) (h : reconciles st u) :
    reconciles (update_balance st uid amount ty ds).2 u := by
  have hst1 : reconciles (get_balance st uid).2 u := reconciles_get_balance st uid u h
  obtain ⟨row1, hrow1, hw1, hb1⟩ := get_balance_findUser st uid
  unfold update_balance
  by_cases hneg : (get_balance st uid).1.wallet + amount < 0
  · simpa [hneg] using hst1
  · simp only [hneg, if_false]
    unfold reconciles at hst1 ⊢
    rw [txSum_append_one, txSum_setUser]
    rw [findUser_transactions, EcoState.findUser_setUser]
    rw [starting_transactions, starting_setUser]
    by_cases hu : u = uid
    · subst hu
      rw [hrow1] at hst1 ⊢
      simp only [Option.map_some', if_pos rfl, if_true]
      have hst1' : txSum (get_balance st u).2 u =
          row1.balance - (get_balance st u).2.starting_balance := hst1
      rw [hw1] at hst1'
      rw [hst1']
      ring
    · rw [if_neg (fun hc : (⟨uid, amount, ty, ds⟩ : Txn).user_id = u => hu (by
        simpa using hc.symm))]
      cases hvu : (get_balance st uid).2.findUser u with
      | none =>
          rw [hvu] at hst1
          simpa using hst1
      | some rowu =>
          rw [hvu] at hst1
          simp only [Option.map_some', if_neg hu]
          have hst1' : txSum (get_balance st uid).2 u =
              rowu.balance - (get_balance st uid).2.starting_balance := hst1
          rw [hst1']
          ring

/-- Witness for the amended C2 theorem: a credit of 5 on a fresh account. -/
theorem update_balance_preserves_reconciliation_witness :
    reconciles (update_balance exStFresh 1 5 "credit" "gift").2 1 :=
  update_balance_preserves_reconciliation exStFresh 1 5 "credit" "gift" 1 (by decide)

/-- Claim C5, counterexample: the pay command runs two independent
`update_balance` calls with no compensation logic; when the recipient credit
fails after the sender debit committed, the sender stays debited.  With
sender wallet 100 and a transfer of 5 whose credit step fails, the failure is
surfaced but the sender's balance is 95, not the pre-transfer 100. -/
theorem pay_credit_failure_keeps_debit :
    (pay exStPay 1 2 5 "Alice" "Bob" true).1 = .error .storageFailure ∧
    (exStPay.findUser 1).map UserRow.balance = some 100 ∧
    ((pay exStPay 1 2 5 "Alice" "Bob" true).2.findUser 1).map UserRow.balance =
      some 95 := by
  decide

/-- Claim C5, amended: the pay command does reject non-positive amounts and
self-transfers before any mutation, but it is not atomic: when the credit to
the receiver fails after the sender was debited, no compensating credit runs
— the failure is surfaced with the sender's wallet left at
`pre-transfer - amount`. -/
theorem pay_rejects_before_mutation_but_not_atomic (st : EcoState)
    (author recipient amount : Int) (an rn : String) (cf : Bool)
    (row : UserRow) (hrow : st.findUser author = some row) :
    (amount ≤ 0 →
      pay st author recipient amount an rn cf = (.error .nonPositiveAmount, st)) ∧
    (0 < amount → amount ≤ row.balance → author = recipient →
      pay st author recipient amount an rn cf = (.error .selfTransfer, st)) ∧
    (0 < amount → amount ≤ row.balance → author ≠ recipient → cf = true →
      (pay st author recipient amount an rn cf).1 = .error .storageFailure ∧
      ((pay st author recipient amount an rn cf).2.findUser author).map
        UserRow.balance = some (row.balance - amount)) := by
  refine ⟨fun hnp => ?_, fun hpos hle hself => ?_, fun hpos hle hself hcf => ?_⟩
  · unfold pay
    rw [if_pos hnp]
  · unfold pay
    rw [if_neg (not_le.mpr hpos)]
    rw [get_balance_of_found st author row hrow]
    simp only
    rw [if_neg (not_lt.mpr hle), if_pos hself]
  · unfold pay
    rw [if_neg (not_le.mpr hpos)]
    rw [get_balance_of_found st author row hrow]
    simp only
    rw [if_neg (not_lt.mpr hle), if_neg hself]
    rw [update_balance_success st author row (-amount) "transfer_sent"
      ("Payment to " ++ rn) hrow (by omega)]
    simp only
    rw [hcf]
    simp only [if_true]
    constructor
    · trivial
    · rw [findUser_transactions, EcoState.findUser_setUser, hrow]
      simp only [Option.map_some', if_pos rfl]
      have : row.balance + -amount = row.balance - amount := by ring
      simp [this]

/-- Witness for the amended C5 theorem: non-positive rejection, self-transfer
rejection and the lost-debit outcome at concrete inputs. -/
theorem pay_rejects_before_mutation_but_not_atomic_witness :
    pay exStPay 1 2 (-3) "Alice" "Bob" false = (.error .nonPositiveAmount, exStPay) ∧
    pay exStPay 1 1 5 "Alice" "Alice" false = (.error .selfTransfer, exStPay) ∧
    (pay exStPay 1 2 5 "Alice" "Bob" true).1 = .error .storageFailure :=
  ⟨(pay_rejects_before_mutation_but_not_atomic exStPay 1 2 (-3) "Alice" "Bob"
      false ⟨100, 0, none, 0, []⟩ (by decide)).1 (by decide),
   (pay_rejects_before_mutation_but_not_atomic exStPay 1 1 5 "Alice" "Alice"
      false ⟨100, 0, none, 0, []⟩ (by decide)).2.1 (by decide) (by decide) rfl,
   ((pay_rejects_before_mutation_but_not_atomic exStPay 1 2 5 "Alice" "Bob"
      true ⟨100, 0, none, 0, []⟩ (by decide)).2.2 (by decide) (by decide)
      (by decide) rfl).1⟩

theorem get_inventory_of_found (st : EcoState) (uid : Int) (row : UserRow)
    (h : st.findUser uid = some row) : get_inventory st uid = row.inventory := by
  unfold get_inventory
  rw [h]

theorem add_to_inventory_of_found (st : EcoState) (uid : Int) (row : UserRow)
    (name : String) (q : Int) (h : st.findUser uid = some row) :
    add_to_inventory st uid name q =
      st.setUser uid (fun r =>
        { r with inventory := invSet row.inventory name (invGet row.inventory name + q) }) := by
  unfold add_to_inventory
  rw [get_inventory_of_found st uid row h]

/-- Claim C6, counterexample: a storage failure during the wallet-debit step
of `buy_item` does not undo the earlier mutations — `add_to_inventory`'s own
`with self.conn:` block has already committed the stock decrement and
inventory increment (sqlite3 has no nested transactions), and only the debit
and ledger insert are rolled back.  At stock 1 / price 100 / wallet 100, the
failed call leaves stock 0 and inventory 1 while wallet and ledger are
unchanged, so not all four mutations are reverted as claimed. -/
theorem buy_item_debit_failure_keeps_commits :
    (buy_item exStShop 1 "Sword" .duringDebit).1 = .error .storageFailure ∧
    (findShopItem exStShop "Sword").map ShopItem.stock = some 1 ∧
    (findShopItem (buy_item exStShop 1 "Sword" .duringDebit).2 "Sword").map
      ShopItem.stock = some 0 ∧
    ((buy_item exStShop 1 "Sword" .duringDebit).2.findUser 1).map
      (fun r => invGet r.inventory "Sword") = some 1 ∧
    ((buy_item exStShop 1 "Sword" .duringDebit).2.findUser 1).map
      UserRow.balance = some 100 ∧
    (buy_item exStShop 1 "Sword" .duringDebit).2.transactions = [] := by
  decide

/-- Claim C6, amended: `buy_item` is not one atomic unit.  A failure before
`add_to_inventory`'s commit leaves the state untouched, but a failure during
the wallet debit leaves exactly the first two mutations applied: the shop
stock is decremented and the buyer's inventory incremented, while the wallet
balance and the transaction log are as before the call. -/
theorem buy_item_fault_semantics (st : EcoState) (uid : Int) (name : String)
    (item : ShopItem) (row : UserRow)
    (hfi : findShopItem st name = some item) (hrow : st.findUser uid = some row)
    (hstock : 0 < item.stock) (hfunds : item.price ≤ row.balance) :
    buy_item st uid name .beforeInventoryCommit = (.error .storageFailure, st) ∧
    ((buy_item st uid name .duringDebit).1 = .error .storageFailure ∧
     (buy_item st uid name .duringDebit).2.transactions = st.transactions ∧
     ((buy_item st uid name .duringDebit).2.findUser uid).map UserRow.balance =
       some row.balance ∧
     findShopItem (buy_item st uid name .duringDebit).2 name =
       some { item with stock := item.stock - 1 } ∧
     ((buy_item st uid name .duringDebit).2.findUser uid).map
       (fun r => invGet r.inventory name) =
       some (invGet row.inventory name + 1)) := by
  have hs0 : ¬ item.stock = 0 := by omega
  have hb3 : buy_item st uid name .duringDebit =
      (.error .storageFailure,
       add_to_inventory (decStock st name) uid name 1) := by
    unfold buy_item
    rw [hfi]
    simp only
    rw [if_neg hs0]
    rw [get_balance_of_found st uid row hrow]
    simp only
    rw [if_neg (not_lt.mpr hfunds)]
    rw [if_pos hstock]
  constructor
  · unfold buy_item
    rw [hfi]
    simp only
    rw [if_neg hs0]
    rw [get_balance_of_found st uid row hrow]
    simp only
    rw [if_neg (not_lt.mpr hfunds)]
  · rw [hb3]
    have hrow2 : (decStock st name).findUser uid = some row := hrow
    rw [add_to_inventory_of_found (decStock st name) uid row name 1 hrow2]
    refine ⟨rfl, rfl, ?_, ?_, ?_⟩
    · show ((decStock st name).setUser uid _ |>.findUser uid).map UserRow.balance = _
      rw [EcoState.findUser_setUser]
      rw [show (decStock st name).findUser uid = some row from hrow]
      simp
    · show findShopItem ((decStock st name).setUser uid _) name = _
      rw [findShopItem_setUser, findShopItem_decStock, hfi]
      rfl
    · show ((decStock st name).setUser uid _ |>.findUser uid).map _ = _
      rw [EcoState.findUser_setUser]
      rw [show (decStock st name).findUser uid = some row from hrow]
      simp [invGet_invSet]

/-- Witness for the amended C6 theorem at the Sword shop state. -/
theorem buy_item_fault_semantics_witness :
    buy_item exStShop 1 "Sword" .beforeInventoryCommit =
      (.error .storageFailure, exStShop) :=
  (buy_item_fault_semantics exStShop 1 "Sword" ⟨"Sword", 100, 1, none, true⟩
    ⟨100, 0, none, 0, []⟩ (by decide) (by decide) (by decide) (by decide)).1

/-- Claim C7, code bug: the streak state machine of the spec is what
`claim_daily` visibly attempts, but `claim_daily` stores `datetime.now()`
(whose sqlite serialisation carries `.ffffff` whenever `microsecond != 0`)
and re-reads it with format `'%Y-%m-%d %H:%M:%S'`.  For an account whose
last claim was stored at microsecond 500000, a claim 30 hours later — which
per the claim must increment the streak to 2 — raises the strptime
`ValueError` before the TooSoon check and mutates nothing. -/
theorem claim_daily_parse_error_instead_of_streak :
    claim_daily exStMicro 1 ⟨108000, 0⟩ = (.error .parseError, exStMicro) := by
  decide

/-- Claim C8: `buy_item` fails with ItemNotFound when no active item matches,
OutOfStock when the matched item's stock is 0, InsufficientFunds when the
item is found and stocked but the wallet is below the price; and at the
concrete stock-1/price-100/wallet-100 state the purchase succeeds leaving
wallet 0 and stock 0, after which a second purchase fails with OutOfStock. -/
theorem buy_item_errors_and_stock_scenario :
    (∀ st uid name fault, findShopItem st name = none →
      buy_item st uid name fault = (.error .itemNotFound, st)) ∧
    (∀ st uid name fault item, findShopItem st name = some item →
      item.stock = 0 → buy_item st uid name fault = (.error .outOfStock, st)) ∧
    (∀ st uid name fault item row, findShopItem st name = some item →
      item.stock ≠ 0 → st.findUser uid = some row → row.balance < item.price →
      buy_item st uid name fault = (.error .insufficientFunds, st)) ∧
    ((buy_item exStShop 1 "Sword" .noFault).1 = .ok ⟨"Sword", 100, none⟩ ∧
     ((buy_item exStShop 1 "Sword" .noFault).2.findUser 1).map UserRow.balance =
       some 0 ∧
     (findShopItem (buy_item exStShop 1 "Sword" .noFault).2 "Sword").map
       ShopItem.stock = some 0 ∧
     (buy_item (buy_item exStShop 1 "Sword" .noFault).2 1 "Sword" .noFault).1 =
       .error .outOfStock) := by
  refine ⟨?_, ?_, ?_, by decide⟩
  · intro st uid name fault hfi
    unfold buy_item
    rw [hfi]
  · intro st uid name fault item hfi hs
    unfold buy_item
    rw [hfi]
    simp only
    rw [if_pos hs]
  · intro st uid name fault item row hfi hs hrow hlt
    unfold buy_item
    rw [hfi]
    simp only
    rw [if_neg hs]
    rw [get_balance_of_found st uid row hrow]
    simp only
    rw [if_pos hlt]

/-- Witness for C8's three error cases at concrete states. -/
theorem buy_item_errors_and_stock_scenario_witness :
    buy_item exStShop 1 "Axe" .noFault = (.error .itemNotFound, exStShop) ∧
    buy_item ⟨[(1, ⟨100, 0, none, 0, []⟩)], [], [⟨"Sword", 100, 0, none, true⟩], 1000⟩
      1 "Sword" .noFault =
      (.error .outOfStock,
       ⟨[(1, ⟨100, 0, none, 0, []⟩)], [], [⟨"Sword", 100, 0, none, true⟩], 1000⟩) ∧
    buy_item ⟨[(1, ⟨50, 0, none, 0, []⟩)], [], [⟨"Sword", 100, 1, none, true⟩], 1000⟩
      1 "Sword" .noFault =
      (.error .insufficientFunds,
       ⟨[(1, ⟨50, 0, none, 0, []⟩)], [], [⟨"Sword", 100, 1, none, true⟩], 1000⟩) :=
  ⟨buy_item_errors_and_stock_scenario.1 exStShop 1 "Axe" .noFault (by decide),
   buy_item_errors_and_stock_scenario.2.1 _ 1 "Sword" .noFault
     ⟨"Sword", 100, 0, none, true⟩ (by decide) rfl,
   buy_item_errors_and_stock_scenario.2.2.1 _ 1 "Sword" .noFault
     ⟨"Sword", 100, 1, none, true⟩ ⟨50, 0, none, 0, []⟩ (by decide) (by decide)
     (by decide) (by decide)⟩

/-- Claim C9, counterexample: the SQL of `get_leaderboard` is `ORDER BY
total DESC LIMIT ?` with no secondary key, so the relative order of
equal-total rows is not specified; both tie orders are admissible results of
the same query on the same state, and the descending-id one violates the
claimed ascending-user_id tie order.  (The claimed `offset` parameter also
does not exist: the Python signature is `get_leaderboard(self, limit=10)`,
and `leader.py`'s call with `offset=` raises a TypeError.) -/
theorem leaderboard_tie_order_not_deterministic :
    get_leaderboard_result exStTie 10 [(2, 100), (1, 100)] ∧
    get_leaderboard_result exStTie 10 [(1, 100), (2, 100)] ∧
    tiesAscending [(2, 100), (1, 100)] = false := by
  refine ⟨⟨[(2, 100), (1, 100)], by decide, by decide, by decide⟩,
          ⟨[(1, 100), (2, 100)], by decide, by decide, by decide⟩, by decide⟩

/-- Claim C9, amended: every admissible result of `get_leaderboard(limit)`
is ordered descending by total wealth (wallet + bank) and holds at most
`limit` entries; the order among equal totals is unspecified (no user_id
tie-break exists in the query) and there is no offset parameter. -/
theorem get_leaderboard_sorted_and_limited (st : EcoState) (limit : Nat)
    (out : List (Int × Int)) (h : get_leaderboard_result st limit out) :
    sortedTotalsDesc out = true ∧ out.length ≤ limit := by
  obtain ⟨perm, hperm, hsort, hout⟩ := h
  subst hout
  refine ⟨sortedTotalsDesc_take perm limit hsort, ?_⟩
  rw [List.length_take]
  exact min_le_left _ _

/-- Witness for the amended C9 theorem at the two-user tie state. -/
theorem get_leaderboard_sorted_and_limited_witness :
    sortedTotalsDesc [(2, 100), (1, 100)] = true ∧
    ([(2, 100), (1, 100)] : List (Int × Int)).length ≤ 10 :=
  get_leaderboard_sorted_and_limited exStTie 10 [(2, 100), (1, 100)]
    ⟨[(2, 100), (1, 100)], by decide, by decide, by decide⟩

/-- Claim C10: once `last_daily` holds a timestamp with nonzero
microseconds — which is exactly what a successful `claim_daily` stores
whenever the wall clock's microsecond field is nonzero — every later
`claim_daily` for that account raises the strptime parse error before the
TooSoon check, mutating nothing; hence (the state being returned unchanged)
such an account never again sees TooSoon or receives a reward. -/
theorem claim_daily_micro_timestamp_poisons :
    (∀ st uid row ts now, st.findUser uid = some row → row.last_daily = some ts →
      ts.micro ≠ 0 → claim_daily st uid now = (.error .parseError, st)) ∧
    (∀ st uid now res st2, claim_daily st uid now = (.ok res, st2) →
      ∃ row2, st2.findUser uid = some row2 ∧ row2.last_daily = some now) := by
  constructor
  · intro st uid row ts now hrow hld hm
    unfold claim_daily
    rw [hrow]
    simp only
    rw [hld]
    simp only
    rw [if_pos hm]
  · intro st uid now res st2 hok
    unfold claim_daily at hok
    cases hlk : st.findUser uid with
    | none =>
        rw [hlk] at hok
        simp only at hok
        have hst2 := congrArg Prod.snd hok
        simp only at hst2
        rw [← hst2]
        rw [EcoState.findUser_setUser, findUser_add_user_of_none st uid uid hlk]
        simp only [if_pos rfl, Option.map_some']
        exact ⟨_, rfl, rfl⟩
    | some row0 =>
        rw [hlk] at hok
        simp only at hok
        cases hld : row0.last_daily with
        | none =>
            rw [hld] at hok
            simp only at hok
            have hst2 := congrArg Prod.snd hok
            simp only at hst2
            rw [← hst2]
            rw [EcoState.findUser_setUser, hlk]
            simp only [if_pos rfl, Option.map_some']
            exact ⟨_, rfl, rfl⟩
        | some last =>
            rw [hld] at hok
            simp only at hok
            by_cases hm : last.micro = 0
            · rw [if_neg (fun hne : last.micro ≠ 0 => hne hm)] at hok
              by_cases hlt : (now.sec - last.sec) * 1000000 + (now.micro : Int) <
                  24 * 3600 * 1000000
              · rw [if_pos hlt] at hok
                have := congrArg Prod.fst hok
                simp only at this
                exact Except.noConfusion this
              · rw [if_neg hlt] at hok
                have hst2 := congrArg Prod.snd hok
                simp only at hst2
                rw [← hst2]
                rw [EcoState.findUser_setUser, hlk]
                simp only [if_pos rfl, Option.map_some']
                exact ⟨_, rfl, rfl⟩
            · rw [if_pos hm] at hok
              have := congrArg Prod.fst hok
              simp only at this
              exact Except.noConfusion this

/-- Witness for C10: the poisoned account rejects a later claim unchanged,
and a fresh successful claim at microsecond 999 stores that timestamp. -/
theorem claim_daily_micro_timestamp_poisons_witness :
    claim_daily exStMicro 1 ⟨200000, 123⟩ = (.error .parseError, exStMicro) ∧
    ((claim_daily exStFresh 1 ⟨5, 999⟩).2.findUser 1).map UserRow.last_daily =
      some (some ⟨5, 999⟩) := by
  refine ⟨claim_daily_micro_timestamp_poisons.1 exStMicro 1
    ⟨1100, 0, some ⟨0, 500000⟩, 1, []⟩ ⟨0, 500000⟩ ⟨200000, 123⟩ (by decide) rfl
    (by decide), ?_⟩
  obtain ⟨row2, h1, h2⟩ := claim_daily_micro_timestamp_poisons.2 exStFresh 1
    ⟨5, 999⟩ ⟨100, 1, 0⟩ (claim_daily exStFresh 1 ⟨5, 999⟩).2 (by decide)
  rw [h1]
  simp [h2]
